import Mathlib

/-!
Verification of the learned-optimizer repository (nn/maskgen_bnn.py and
optimizers/neural_bnn_obsrv.py) against its natural-language specification.

Tensors are embedded as rational-valued lists (`List ℚ` for vectors that the
source stores as `(n, 1)` tensors, `List (List ℚ)` for matrices).  Stochastic
choices (dropout keep decisions, the Beta-Bernoulli sampler) are threaded as
explicit inputs.  Fallible tensor operations (`torch.cat` with mismatched
sizes, Python attribute lookups) return `Option`/`Except`.
-/

namespace LearnedOpt

/-- A rational matrix, stored as a list of rows. -/
abbrev Mat := List (List ℚ)

/-! ## FeatureGenerator (nn/maskgen_bnn.py, lines 20-102)

The momentum state kept by `FeatureGenerator`: `self.momentum` and
`self.momentum_sq`, each either `None` or an `(n_params, len(decay_values))`
matrix.  `decay_values` is passed explicitly. -/

structure FGState where
  momentum : Option Mat
  momentum_sq : Option Mat
  deriving DecidableEq

/-- `FeatureGenerator.new` (lines 50-53): resets `self.momentum = None` and
nothing else (`momentum_sq` keeps whatever tensor it held). -/
def FGState.new (s : FGState) : FGState :=
  { s with momentum := none }

/-- `g.repeat(1, k)` for an `(n, 1)` tensor `g`: each row of the result is the
corresponding entry of `g` repeated `k` times. -/
def momInit (g : List ℚ) (k : Nat) : Mat :=
  g.map (fun gi => List.replicate k gi)

/-- Broadcast semantics of `r * momentum + (1 - r) * g` (line 76/77) with
`r : (k,)`, `momentum : (n, k)` and `g : (n, 1)`: entry `(i, j)` of the result
is `r_j * momentum_(i,j) + (1 - r_j) * g_i`. -/
def momUpdate (decays : List ℚ) (m : Mat) (g : List ℚ) : Mat :=
  List.zipWith
    (fun row gi => List.zipWith (fun r mij => r * mij + (1 - r) * gi) decays row)
    m g

/-- The momentum-update prefix of `FeatureGenerator.forward` (lines 67-77).
When `self.momentum is None` both moments are (re)initialized from the current
gradient; otherwise both follow the decaying recurrence.  The arithmetic on a
`None` second moment (impossible to reach from `__init__`/`new`, but a Python
`TypeError` if it happened) is returned as `none`. -/
def updateMoments (decays : List ℚ) (s : FGState) (g : List ℚ) : Option FGState :=
  match s.momentum with
  | none =>
      some { momentum := some (momInit g decays.length),
             momentum_sq := some (momInit (g.map (fun x => x * x)) decays.length) }
  | some m =>
      match s.momentum_sq with
      | some msq =>
          some { momentum := some (momUpdate decays m g),
                 momentum_sq := some (momUpdate decays msq (g.map (fun x => x * x))) }
      | none => none

/-- First forward call after `new()`. -/
def fgStep1 (decays g1 : List ℚ) (s : FGState) : Option FGState :=
  updateMoments decays s.new g1

/-- Second forward call after `new()`. -/
def fgStep2 (decays g1 g2 : List ℚ) (s : FGState) : Option FGState :=
  (fgStep1 decays g1 s).bind (fun t => updateMoments decays t g2)

/-- Entry `(i, j)` of an optional matrix. -/
def entry2? (m : Option Mat) (i j : Nat) : Option ℚ :=
  m.bind (fun mm => mm[i]?.bind (fun row => row[j]?))

/-! ## FeatureGenerator dense layers and MC dropout (lines 94-99) -/

/-- `torch.nn.functional.dropout(x, p, training)`; the `training` argument of
the functional form defaults to `True` and the source calls `F.dropout(x, p)`
without passing the module's own mode.  The Bernoulli keep decisions are an
explicit `keep` list; kept entries are rescaled by `1 / (1 - p)`. -/
def dropoutF (p : ℚ) (training : Bool) (keep : List Bool) (x : List ℚ) : List ℚ :=
  if training then
    List.zipWith (fun k v => if k then v / (1 - p) else 0) keep x
  else x

/-- One `(dense layer, dropout keep mask)` stage of the feature stack. -/
abbrev FGStage := (List ℚ → List ℚ) × List Bool

/-- The dense/dropout tail of `FeatureGenerator.forward` (lines 95-99):
`p = self.drop_rate if p is None else p`, then for every layer
`x = layer(x); x = F.dropout(x, p)`.  `moduleTraining` models the
`nn.Module` train/eval flag, which this code never consults: `F.dropout`
is invoked with its default `training=True`. -/
def featureGenDense (_moduleTraining : Bool) (dropRate : ℚ) (pArg : Option ℚ)
    (stages : List FGStage) (x : List ℚ) : List ℚ :=
  let p := pArg.getD dropRate
  stages.foldl (fun acc st => dropoutF p true st.2 (st.1 acc)) x

/-! ## StepGenerator (lines 105-148) -/

/-- `self.out_temp = 1e-5` (line 106). -/
def out_temp : ℚ := 1 / 100000

/-- `torch.clamp(step, max=0.01, min=-0.01)` (line 147): values above the
upper bound become the bound, values below the lower bound likewise, others
pass through. -/
def clampStep (x : ℚ) : ℚ :=
  if 1 / 100 ≤ x then 1 / 100
  else if x ≤ -(1 / 100) then -(1 / 100)
  else x

/-- `StepGenerator.forward` output stage (lines 138-148).  `outs` holds the
rows `(out_1, out_2)` of the final linear layer; `expF` is the tensor engine's
elementwise `exp` (external collaborator; any faithful model has `expF 0 = 1`).
Per row: `step = exp(out_1 * out_temp) * out_2 * out_temp`, then the clamp. -/
def stepGenForward (expF : ℚ → ℚ) (outs : List (ℚ × ℚ)) : List ℚ :=
  outs.map (fun o => clampStep (expF (o.1 * out_temp) * o.2 * out_temp))

/-! ## MaskGenerator.build_block_diag and its zero-block cache (lines 192-233)

`self.zeros` is `None` after `__init__` and is filled on the first call with
the left/right zero matrices for the block sizes seen then; it is never
invalidated afterwards.  `torch.cat` along dim 1 (resp. dim 0) fails unless
the row counts (resp. column counts) of its arguments agree. -/

/-- `torch.zeros(r, c)` as a list-of-rows matrix. -/
def zerosMat (r c : Nat) : Mat :=
  List.replicate r (List.replicate c (0 : ℚ))

/-- One cache entry: the optional left and right zero blocks for one tensor
(`None` for the left block of the first tensor and the right block of the
last one, exactly as in the source). -/
abbrev ZEntry := Option Mat × Option Mat

abbrev ZCache := List ZEntry

/-- The cache-building loop (lines 202-221), recursing over the block row
counts.  `total` is the sum of all row counts, `offset` the sum of the row
counts already passed, `first` whether we are at `i = 0`. -/
def mkZerosSig (total offset : Nat) (first : Bool) : List Nat → ZCache
  | [] => []
  | cur :: rest =>
      let left : Option Mat := if first then none else some (zerosMat cur offset)
      let offset2 := offset + cur
      let right : Option Mat :=
        if rest.isEmpty then none else some (zerosMat cur (total - offset2))
      (left, right) :: mkZerosSig total offset2 false rest

/-- Row counts of a list of blocks (`[s.size(0) for s in tensors]`, line 205). -/
def sizesOf (tensors : List Mat) : List Nat :=
  tensors.map List.length

/-- The zero-block cache built from a fresh (`self.zeros is None`) state. -/
def mkZeros (tensors : List Mat) : ZCache :=
  mkZerosSig (sizesOf tensors).sum 0 true (sizesOf tensors)

/-- `torch.cat([a, b], dim=1)`: requires equal row counts. -/
def catCols2 (a b : Mat) : Option Mat :=
  if a.length = b.length then some (List.zipWith (fun r1 r2 => r1 ++ r2) a b) else none

/-- `torch.cat(blocks_sub, dim=1)` for a nonempty list of matrices. -/
def catColsList : List Mat → Option Mat
  | [] => none
  | m :: rest => rest.foldlM catCols2 m

/-- Number of columns of a (uniform) matrix. -/
def colsOf (m : Mat) : Nat := (m.headD []).length

/-- `torch.cat(blocks, dim=0)`: requires equal column counts. -/
def catRowsList : List Mat → Option Mat
  | [] => none
  | m :: rest =>
      if rest.all (fun x => colsOf x = colsOf m) then some ((m :: rest).flatten)
      else none

/-- Lines 226-232: concatenate one tensor with its cached left/right zero
blocks along dim 1 (entries that are `None` are skipped). -/
def assembleBlock (z : ZEntry) (t : Mat) : Option Mat :=
  catColsList (z.1.toList ++ [t] ++ z.2.toList)

/-- The assembly loop (lines 223-232); `self.zeros[i]` with too short a cache
is a Python `IndexError`, returned as `none`. -/
def assembleAll : ZCache → List Mat → Option (List Mat)
  | _, [] => some []
  | [], _ :: _ => none
  | z :: zs, t :: ts => do
      let b ← assembleBlock z t
      let bs ← assembleAll zs ts
      pure (b :: bs)

/-- `build_block_diag` with an explicit cache. -/
def buildBlockDiagWith (cache : ZCache) (tensors : List Mat) : Option Mat := do
  let blocks ← assembleAll cache tensors
  catRowsList blocks

/-- `MaskGenerator.build_block_diag` (lines 192-233) acting on the
`self.zeros` slot: builds the cache when it is `None`, then assembles.  The
returned cache is the (possibly freshly built) cache, which the object keeps
regardless of whether assembly succeeds. -/
def buildBlockDiag (st : Option ZCache) (tensors : List Mat) :
    Option ZCache × Option Mat :=
  let cache := match st with | none => mkZeros tensors | some c => c
  (some cache, buildBlockDiagWith cache tensors)

/-- A memoized sequence of `build_block_diag` calls threading `self.zeros`. -/
def bbdRun (st : Option ZCache) : List (List Mat) → List (Option Mat)
  | [] => []
  | call :: rest =>
      let r := buildBlockDiag st call
      r.2 :: bbdRun r.1 rest

/-- The always-rebuild variant: every call starts from `self.zeros is None`. -/
def bbdRunRebuild (calls : List (List Mat)) : List (Option Mat) :=
  calls.map (fun c => (buildBlockDiag none c).2)

/-- The expected block-diagonal layout, written from the specification's
words: block `i` occupies rows and columns starting at the sum of the sizes of
the blocks before it, padded with zeros on both sides; `total` is the sum of
all block sizes. -/
def blockDiagSpecBlocks (total offset : Nat) : List Mat → List Mat
  | [] => []
  | t :: rest =>
      t.map (fun row =>
        List.replicate offset (0 : ℚ) ++ row ++
          List.replicate (total - (offset + t.length)) (0 : ℚ)) ::
        blockDiagSpecBlocks total (offset + t.length) rest

/-- Specification-side block-diagonal matrix of a list of square blocks. -/
def blockDiagSpec (tensors : List Mat) : Mat :=
  (blockDiagSpecBlocks (sizesOf tensors).sum 0 tensors).flatten

/-- A nonempty square matrix with uniform row lengths. -/
def SquareMat (t : Mat) : Prop :=
  0 < t.length ∧ ∀ row ∈ t, row.length = t.length

instance : DecidablePred SquareMat := fun t => by
  unfold SquareMat
  infer_instance

/-! ## MaskGenerator identity/ones cache (lines 291-293)

`self.eyes` is rebuilt whenever `self.eyes is None or not
self.eyes.size(0) == (x_set.size(0) * 2)` — note the `* 2` in the source. -/

/-- `torch.eye(n)`. -/
def eyeMat (n : Nat) : Mat :=
  (List.range n).map (fun i => (List.range n).map (fun j => if i = j then (1 : ℚ) else 0))

/-- The rebuild test of line 291, verbatim including the doubling. -/
def eyesRebuildCond (eyes : Option Mat) (n : Nat) : Bool :=
  match eyes with
  | none => true
  | some e => !(e.length == n * 2)

/-- The `self.eyes` slot after line 293 given the current set count `n`. -/
def eyesStep (eyes : Option Mat) (n : Nat) : Mat :=
  if eyesRebuildCond eyes n then eyeMat n else eyes.getD (eyeMat n)

/-! ## MaskGenerator.forward shape pipeline (lines 235-354)

Only the shapes and grouping keys matter for the mask-shape claim, so this
part of the embedding computes on `torch.Size` values (lists of `Nat`),
mirroring the source's splitting / viewing / unsqueezing / concatenation /
averaging steps and their failure conditions. -/

/-- Helper for `pySplit`: scan the character list, cutting at separators. -/
def splitAuxC (sep : Char) : List Char → List Char → List (List Char)
  | [], cur => [cur.reverse]
  | c :: cs, cur =>
      if c = sep then cur.reverse :: splitAuxC sep cs []
      else splitAuxC sep cs (c :: cur)

/-- Python's `str.split(sep)` for a one-character separator (used by the
source as `n.split('_')`, line 276). -/
def pySplit (sep : Char) (s : String) : List String :=
  (splitAuxC sep s.toList []).map List.asString

/-- Insertion-ordered grouping (the `layerwise` dict build of lines 274-280;
Python dicts preserve insertion order). -/
def groupInsert {α : Type} (acc : List (String × List α)) (key : String) (v : α) :
    List (String × List α) :=
  match acc with
  | [] => [(key, [v])]
  | (k, vs) :: rest =>
      if k = key then (k, vs ++ [v]) :: rest
      else (k, vs) :: groupInsert rest key v

def groupByLayer {α : Type} (l : List (String × α)) : List (String × List α) :=
  l.foldl (fun acc kv => groupInsert acc kv.1 kv.2) []

/-- `torch.cat(xs, dim=0)` on the shape level: every shape must be nonempty
and all shapes must share the tail; the result sums the leading dimensions. -/
def catDim0Shapes : List (List Nat) → Option (List Nat)
  | [] => none
  | s :: rest =>
      match s with
      | [] => none
      | d0 :: tl =>
          if rest.all (fun x => x.tail = tl ∧ ¬x.isEmpty) then
            some ((d0 + (rest.map (fun x => x.headD 0)).sum) :: tl)
          else none

/-- The shape-level semantics of `MaskGenerator.forward` up to the mask split
(lines 248-354): returns the ordered list of `(mask key, mask length)` pairs
(`'layer_' + n` with the per-layer unit count `s[0]`), or `none` where the
source would raise.  `size` is the ordered `size` dict, `hidden` the feature
width. -/
def maskGenMaskShapes (size : List (String × List Nat)) (hidden : Nat) :
    Option (List (String × Nat)) := do
  let sizes := size.map (fun kv => kv.2)
  -- x_set = torch.split(x, split_sizes); x.view(*s, hidden)   (lines 252-257)
  let shaped := sizes.map (fun s => s ++ [hidden])
  let maxDim := (shaped.map List.length).foldr Nat.max 0
  -- assert all (max_dim - len(s)) <= 1                       (line 264)
  if ¬ shaped.all (fun s => maxDim - s.length ≤ 1) then none else do
  -- unsqueeze bias shapes                                     (line 265)
  let unsq := shaped.map (fun s => if s.length < maxDim then 1 :: s else s)
  -- n.split('_')[1]                                           (line 276)
  let lids ← size.mapM (fun kv => (pySplit '_' kv.1).get? 1)
  let groups := groupByLayer (lids.zip unsq)
  -- torch.cat(xs, dim=0).mean(0) per group                    (line 282)
  let gshapes ← groups.mapM (fun g => do
    let c ← catDim0Shapes g.2
    pure (g.1, c.tail))
  -- masks are split by [s[0] for s in x_set_sizes] and keyed  (lines 352-354)
  gshapes.mapM (fun g => do
    let h ← g.2.head?
    pure ("layer_" ++ g.1, h))

/-! ## MaskGenerator lambda/gamma state and detach_lambdas_ (lines 155-190,
299-332) -/

/-- A tensor together with its autograd attachment flag; `detach` clears the
flag and keeps the numbers. -/
structure TensorG where
  data : List ℚ
  attached : Bool
  deriving DecidableEq

def TensorG.detach (t : TensorG) : TensorG :=
  { t with attached := false }

/-- Python errors that the embedding distinguishes. -/
inductive PyError where
  | attributeError (attr : String)
  | typeError (fn : String)
  deriving DecidableEq

/-- The lambda/gamma slots of a `MaskGenerator`.  `gamm_g`/`gamm_l` are
assigned (to `None`) in `__init__`, so they are `Option`s whose `none` is
Python's `None`; `lamb` is never assigned in `__init__`, so its outer `none`
means the attribute does not exist and reading it raises `AttributeError`. -/
structure MGLambdaState where
  gamm_g : Option TensorG
  gamm_l : Option (List TensorG)
  lamb : Option (Option TensorG)
  deriving DecidableEq

/-- The slots right after `MaskGenerator.__init__` (lines 155-182):
`self.gamm_g = None`, `self.gamm_l = None`, and no `self.lamb` at all. -/
def mgFreshState : MGLambdaState :=
  { gamm_g := none, gamm_l := none, lamb := none }

/-- `MaskGenerator.detach_lambdas_` (lines 184-190), in source order:
`gamm_g` and `gamm_l` are detached when not `None`; then `self.lamb` is read,
which raises `AttributeError` when the attribute was never assigned. -/
def detachLambdas (s : MGLambdaState) : Except PyError MGLambdaState :=
  let g := match s.gamm_g with
    | some t => some t.detach
    | none => none
  let l := match s.gamm_l with
    | some ts => some (ts.map TensorG.detach)
    | none => none
  match s.lamb with
  | none => Except.error (PyError.attributeError "lamb")
  | some none => Except.ok { gamm_g := g, gamm_l := l, lamb := some none }
  | some (some t) => Except.ok { gamm_g := g, gamm_l := l, lamb := some (some t.detach) }

/-- `lamb_scale = 1` (line 180). -/
def lamb_scale : ℚ := 1

/-- `gamm_scale = 1e-3` (line 179). -/
def gamm_scale : ℚ := 1 / 1000

/-- Mean of a rational list (`t.mean(0)` of an `(n, 1)` column). -/
def meanQ (l : List ℚ) : ℚ := l.sum / l.length

/-- `torch.split(l, szs, dim=0)` on a flat column. -/
def splitSizesQ : List ℚ → List Nat → List (List ℚ)
  | _, [] => []
  | l, n :: rest => l.take n :: splitSizesQ (l.drop n) rest

/-- The effect of one `MaskGenerator.forward` call on the lambda/gamma slots
(lines 309-325): `out` holds the rows `(out_0, out_1, out_2)` of the final
`avg_layers` output, `setSizes` the per-layer set sizes `[s[0] for s in
x_set_sizes]`.  `self.lamb`, `self.gamm_g` and `self.gamm_l` all end up
assigned to freshly computed graph-attached tensors. -/
def forwardLambdaEffect (out : List (ℚ × ℚ × ℚ)) (setSizes : List Nat)
    (_s : MGLambdaState) : MGLambdaState :=
  { lamb := some (some ⟨[meanQ (out.map (fun r => r.1)) * lamb_scale], true⟩),
    gamm_g := some ⟨[meanQ (out.map (fun r => r.2.1)) * gamm_scale], true⟩,
    gamm_l := some ((splitSizesQ (out.map (fun r => r.2.2)) setSizes).map
      (fun col => ⟨[meanQ col * gamm_scale], true⟩)) }

/-! ## Optimizer.meta_optimize (optimizers/neural_bnn_obsrv.py) -/

/-- The `mode` argument of `meta_optimize` (line 46). -/
inductive RunMode where
  | train
  | valid
  | test
  deriving DecidableEq

/-- What the truncation block does besides updating the accumulator. -/
structure TruncEffects where
  zeroedGrad : Bool
  backproped : Option ℚ
  gradClip : Option ℚ
  steppedMeta : Bool
  detachedParams : Bool
  deriving DecidableEq

/-- The running `unroll_losses` accumulator.  Python distinguishes the plain
int `0` it is initialized and reset to (lines 53 and 153) from the tensor it
becomes once a `total_test` has been added: `.backward()` exists only on the
tensor. -/
inductive Accum where
  | intZero
  | tensor (v : ℚ)
  deriving DecidableEq

/-- `unroll_losses += total_test` (line 147): adding a tensor to the int `0`
yields a tensor. -/
def Accum.add (a : Accum) (q : ℚ) : Accum :=
  match a with
  | .intZero => .tensor (0 + q)
  | .tensor v => .tensor (v + q)

/-- Lines 145-158 of `meta_optimize`: the accumulate/truncate/detach block
executed once per inner iteration, as a function of the mode, the 1-based
iteration index, the unroll length, this iteration's `total_test`
(`nll_test + kld_test`) and the current accumulator.  Returns the new
accumulator, the effects performed, and the Python error raised by the
block, if any.  Two error paths exist on a boundary iteration: if the
accumulator is still the int `0` (as at every boundary when `unroll = 1`),
line 150's `unroll_losses.backward()` raises `AttributeError` right after
`zero_grad()`, so no clip/step/reset happens and line 157 is never reached;
otherwise the full meta-step and reset run and then line 157 evaluates
`self.step_gen.log_lr`, an attribute that `StepGenerator` never assigns, so
an `AttributeError` is raised there, before `params = params.detach_()` on
line 158 can run (the same line-157 error fires at every iteration outside
train mode). -/
def truncBlock (mode : RunMode) (iteration unroll : Nat) (totalTest : ℚ)
    (acc : Accum) : (Accum × TruncEffects) × Option PyError :=
  if mode = RunMode.train then
    if iteration % unroll ≠ 0 then
      -- line 147; the line-155 guard is false, so no detach and no error
      ((acc.add totalTest,
        ({ zeroedGrad := false, backproped := none, gradClip := none,
           steppedMeta := false, detachedParams := false } : TruncEffects)), none)
    else
      match acc with
      | .intZero =>
          -- zero_grad() ran (line 149); backward() on the int 0 raises
          ((Accum.intZero,
            { zeroedGrad := true, backproped := none, gradClip := none,
              steppedMeta := false, detachedParams := false }),
           some (PyError.attributeError "backward"))
      | .tensor v =>
          -- lines 149-153 complete, then line 157 raises before the detach
          ((Accum.intZero,
            { zeroedGrad := true, backproped := some v, gradClip := some (1 / 100),
              steppedMeta := true, detachedParams := false }),
           some (PyError.attributeError "log_lr"))
  else
    -- the line-155 guard holds at every iteration; line 157 raises
    ((acc,
      { zeroedGrad := false, backproped := none, gradClip := none,
        steppedMeta := false, detachedParams := false }),
     some (PyError.attributeError "log_lr"))

/-! ## meta_optimize's doomed call sequence (lines 58-59, 92)

Attribute lookup on an `nn.Module` subclass instance resolves against the
class body and the `nn.Module` base API; the relevant `nn.Module` surface is
modelled as a list of names (it has no `new`). -/

/-- Methods defined in the body of `class FeatureGenerator` (lines 20-102). -/
def featureGeneratorMethods : List String := ["__init__", "new", "forward"]

/-- Methods defined in the body of `class StepGenerator` (lines 105-151). -/
def stepGeneratorMethods : List String := ["__init__", "forward", "forward_with_mask"]

/-- The `torch.nn.Module` attribute surface used here (external collaborator;
modelled: it provides the usual module API and defines no `new`). -/
def nnModuleAttrs : List String :=
  ["train", "eval", "forward", "parameters", "named_parameters", "zero_grad",
   "to", "cuda", "cpu", "state_dict", "load_state_dict", "modules", "children",
   "apply", "register_parameter", "register_buffer"]

/-- Python attribute lookup on an instance of one of the generator classes. -/
def getattrCheck (clsMethods : List String) (attr : String) : Except PyError Unit :=
  if attr ∈ clsMethods ∨ attr ∈ nnModuleAttrs then Except.ok ()
  else Except.error (PyError.attributeError attr)

/-- Python positional-call arity check: `required` parameters without
defaults, `optional` with defaults, `given` positional arguments passed. -/
def pyCallArity (fn : String) (required optional given : Nat) : Except PyError Unit :=
  if required ≤ given ∧ given ≤ required + optional then Except.ok ()
  else Except.error (PyError.typeError fn)

/-- The first generator call of the loop body (line 92):
`feature, v_sqrt = self.feature_gen(g)` calls `FeatureGenerator.forward`,
whose signature `(g, w, p=None)` takes 2 required and 1 optional argument,
with a single positional argument. -/
def innerLoopBodyCalls : Except PyError Unit := do
  pyCallArity "FeatureGenerator.forward" 2 1 1
  pure ()

/-- The effectful call skeleton of `Optimizer.meta_optimize` (lines 58-73,
92): `self.feature_gen.new()` resolves, then `self.step_gen.new()` is looked
up, then the inner loop would run `optimIt` iterations, each appending one
result record after its body's calls succeed. -/
def metaOptimizeCalls (optimIt : Nat) : Except PyError (List Unit) := do
  getattrCheck featureGeneratorMethods "new"
  getattrCheck stepGeneratorMethods "new"
  (List.range optimIt).foldlM
    (fun recs _ => do
      innerLoopBodyCalls
      pure (recs ++ [()]))
    []

/-! ## Shared helper lemmas -/

theorem getq_zipWith {α β γ : Type} (f : α → β → γ) :
    ∀ (l1 : List α) (l2 : List β) (i : Nat),
      (List.zipWith f l1 l2)[i]? = l1[i]?.bind (fun a => l2[i]?.map (f a))
  | [], _, _ => by simp
  | _ :: _, [], i => by cases i <;> simp
  | a :: l1, b :: l2, 0 => by simp
  | a :: l1, b :: l2, i + 1 => by
      simpa using getq_zipWith f l1 l2 i

theorem getq_replicate {α : Type} (a : α) :
    ∀ (k j : Nat), j < k → (List.replicate k a)[j]? = some a
  | k + 1, 0, _ => by simp [List.replicate]
  | k + 1, j + 1, h => by
      simpa [List.replicate] using getq_replicate a k j (Nat.lt_of_succ_lt_succ h)

theorem zipWith_replicate_left_len {α β γ : Type} (f : α → β → γ) (a : α) :
    ∀ l : List β, List.zipWith f (List.replicate l.length a) l = l.map (f a)
  | [] => rfl
  | b :: l => by simp [List.replicate, zipWith_replicate_left_len f a l]

theorem zipWith_replicate_right_len {α β γ : Type} (f : α → β → γ) (b : β) :
    ∀ l : List α, List.zipWith f l (List.replicate l.length b) = l.map (fun x => f x b)
  | [] => rfl
  | a :: l => by simp [List.replicate, zipWith_replicate_right_len f b l]

theorem pysplit_mat0 : (pySplit '_' "mat_0")[1]? = some "0" := rfl

theorem pysplit_bias0 : (pySplit '_' "bias_0")[1]? = some "0" := rfl

theorem pysplit_mat1 : (pySplit '_' "mat_1")[1]? = some "1" := rfl

theorem pysplit_bias1 : (pySplit '_' "bias_1")[1]? = some "1" := rfl

/-! ## Claim C2: the momentum recurrence of FeatureGenerator -/

/-- C2: immediately after `new()`, the first forward call initializes the
first moment to the gradient repeated across each configured decay rate and
the second moment to the squared gradient likewise; the next forward call
updates entry `(i, j)` of the first moment to
`decay_j * prev_(i,j) + (1 - decay_j) * g_i`, elementwise and independently
per decay rate, with the same recurrence on the squared gradient for the
second moment. -/
theorem featureGen_momentum_recurrence (decays g1 g2 : List ℚ) (s : FGState)
    (i j : Nat) (hi : i < g1.length) (hj : j < decays.length)
    (hlen : g2.length = g1.length) :
    ∃ g1i g2i d : ℚ,
      g1[i]? = some g1i ∧ g2[i]? = some g2i ∧ decays[j]? = some d ∧
      entry2? ((fgStep1 decays g1 s).bind FGState.momentum) i j = some g1i ∧
      entry2? ((fgStep1 decays g1 s).bind FGState.momentum_sq) i j = some (g1i * g1i) ∧
      entry2? ((fgStep2 decays g1 g2 s).bind FGState.momentum) i j
        = some (d * g1i + (1 - d) * g2i) ∧
      entry2? ((fgStep2 decays g1 g2 s).bind FGState.momentum_sq) i j
        = some (d * (g1i * g1i) + (1 - d) * (g2i * g2i)) := by
  have hi2 : i < g2.length := hlen ▸ hi
  obtain ⟨g1i, hg1⟩ : ∃ v, g1[i]? = some v := ⟨_, List.getElem?_eq_getElem hi⟩
  obtain ⟨g2i, hg2⟩ : ∃ v, g2[i]? = some v := ⟨_, List.getElem?_eq_getElem hi2⟩
  obtain ⟨d, hd⟩ : ∃ v, decays[j]? = some v := ⟨_, List.getElem?_eq_getElem hj⟩
  refine ⟨g1i, g2i, d, hg1, hg2, hd, ?_, ?_, ?_, ?_⟩
  · simp [fgStep1, updateMoments, FGState.new, entry2?, momInit, List.getElem?_map,
      hg1, getq_replicate _ _ _ hj]
  · simp [fgStep1, updateMoments, FGState.new, entry2?, momInit, List.getElem?_map,
      hg1, getq_replicate _ _ _ hj]
  · simp [fgStep2, fgStep1, updateMoments, FGState.new, entry2?, momUpdate,
      momInit, getq_zipWith, List.getElem?_map, hg1, hg2, hd,
      getq_replicate _ _ _ hj]
  · simp [fgStep2, fgStep1, updateMoments, FGState.new, entry2?, momUpdate,
      momInit, getq_zipWith, List.getElem?_map, hg1, hg2, hd,
      getq_replicate _ _ _ hj]

/-- Witness for C2 at `decays = [1/2]`, `g1 = [3]`, `g2 = [5]`. -/
theorem featureGen_momentum_recurrence_witness :
    ∃ g1i g2i d : ℚ,
      [(3 : ℚ)][0]? = some g1i ∧ [(5 : ℚ)][0]? = some g2i ∧
      [(1 / 2 : ℚ)][0]? = some d ∧
      entry2? ((fgStep1 [1 / 2] [3] ⟨none, none⟩).bind FGState.momentum) 0 0 = some g1i ∧
      entry2? ((fgStep1 [1 / 2] [3] ⟨none, none⟩).bind FGState.momentum_sq) 0 0
        = some (g1i * g1i) ∧
      entry2? ((fgStep2 [1 / 2] [3] [5] ⟨none, none⟩).bind FGState.momentum) 0 0
        = some (d * g1i + (1 - d) * g2i) ∧
      entry2? ((fgStep2 [1 / 2] [3] [5] ⟨none, none⟩).bind FGState.momentum_sq) 0 0
        = some (d * (g1i * g1i) + (1 - d) * (g2i * g2i)) :=
  featureGen_momentum_recurrence [1 / 2] [3] [5] ⟨none, none⟩ 0 0
    (by decide) (by decide) (by decide)

/-! ## Claim C9: new() resets only the first moment, yet no state leaks -/

/-- C9: `FeatureGenerator.new()` sets only `momentum` to `None` and leaves
`momentum_sq` untouched; nevertheless, because `forward` reinitializes both
moments whenever `momentum is None`, the state produced by the first forward
call after `new()` depends only on that call's gradient, so no statistics leak
across runs separated by `new()`. -/
theorem featureGen_new_no_leak :
    (∀ s : FGState,
        (FGState.new s).momentum = none ∧ (FGState.new s).momentum_sq = s.momentum_sq)
  ∧ ∀ (decays g : List ℚ) (s t : FGState),
      updateMoments decays (FGState.new s) g = updateMoments decays (FGState.new t) g := by
  refine ⟨fun s => ⟨rfl, rfl⟩, fun decays g s t => rfl⟩

/-! ## Claim C7: caller-overridable MC dropout, active at evaluation time -/

/-- C7: the dense stack of `FeatureGenerator.forward` applies dropout after
every dense layer; the probability is the caller's `p` when given and the
configured `drop_rate` otherwise; and the module's train/eval mode is never
consulted — with a drop-everything mask, a single-layer stack outputs zero
even with the module in evaluation mode. -/
theorem featureGen_dropout_testtime (dr : ℚ) (pArg : Option ℚ)
    (stages : List FGStage) (x : List ℚ) (m1 m2 : Bool) :
    featureGenDense m1 dr pArg stages x = featureGenDense m2 dr pArg stages x
  ∧ featureGenDense m1 dr none stages x = featureGenDense m1 dr (some dr) stages x
  ∧ ∀ (l : List ℚ → List ℚ) (y : List ℚ),
      featureGenDense false dr pArg [(l, List.replicate (l y).length false)] y
        = List.replicate (l y).length 0 := by
  refine ⟨rfl, rfl, fun l y => ?_⟩
  show dropoutF (pArg.getD dr) true (List.replicate (l y).length false) (l y)
      = List.replicate (l y).length 0
  simp only [dropoutF, if_pos rfl,
    zipWith_replicate_left_len (fun k v => if k then v / (1 - pArg.getD dr) else 0) false (l y)]
  simp [List.eq_replicate_iff]

/-! ## Claim C3: step formula and clamping (corrected: the bound is closed,
not strict) -/

/-- Evaluation of the step generator at final-layer outputs
`(out_1, out_2) = (0, 10000)`, taking `exp (0 * out_temp) = 1` (which holds
for the true exponential): the pre-clamp step is `1/10` and the clamp cuts it
to exactly `1/100`. -/
theorem stepGen_demo_eval : stepGenForward (fun _ => 1) [(0, 10000)] = [1 / 100] := by
  unfold stepGenForward clampStep out_temp
  norm_num

/-- Counterexample to C3 as stated: with final-layer outputs
`(out_1, out_2) = (0, 10000)` (and `exp (0 * out_temp) = 1`, which holds for
the true exponential), the emitted step is exactly `1/100`, so it is not
strictly inside `[-0.01, 0.01]`. -/
theorem stepGen_strict_bound_counterexample :
    stepGenForward (fun _ => 1) [(0, 10000)] = [1 / 100]
  ∧ ¬ ∀ y ∈ stepGenForward (fun _ => 1) [(0, 10000)],
        -(1 / 100 : ℚ) < y ∧ y < 1 / 100 := by
  refine ⟨stepGen_demo_eval, fun hall => ?_⟩
  have hmem : (1 / 100 : ℚ) ∈ stepGenForward (fun _ => 1) [(0, 10000)] := by
    rw [stepGen_demo_eval]; exact List.mem_singleton_self _
  exact absurd (hall (1 / 100) hmem).2 (lt_irrefl _)

/-- C3 (amended): `StepGenerator.forward` emits
`exp(log_lr * out_temp) * direction * out_temp` and clamps it, so every
component of the emitted step lies within the closed clamp range
`[-0.01, 0.01]` (the bound can be attained), regardless of the network
outputs and of the exponential's magnitude. -/
theorem stepGen_clamped (expF : ℚ → ℚ) (outs : List (ℚ × ℚ)) :
    ∀ y ∈ stepGenForward expF outs, -(1 / 100 : ℚ) ≤ y ∧ y ≤ 1 / 100 := by
  intro y hy
  simp only [stepGenForward, List.mem_map] at hy
  obtain ⟨o, -, rfl⟩ := hy
  unfold clampStep
  split_ifs with h1 h2
  · constructor <;> norm_num
  · constructor <;> norm_num
  · exact ⟨le_of_not_le h2, le_of_not_le h1⟩

/-- Witness for C3 (amended) at the counterexample's input. -/
theorem stepGen_clamped_witness :
    -(1 / 100 : ℚ) ≤ 1 / 100 ∧ (1 / 100 : ℚ) ≤ 1 / 100 :=
  stepGen_clamped (fun _ => 1) [(0, 10000)] (1 / 100)
    (by rw [stepGen_demo_eval]; exact List.mem_singleton_self _)

/-! ## Claim C4: mask keys and sizes for the MNIST-shaped size map -/

/-- C4: for the size map `{'mat_0': (784,500), 'bias_0': (500,),
'mat_1': (500,10), 'bias_1': (10,)}`, `MaskGenerator.forward` returns exactly
two masks, keyed `layer_0` and `layer_1`, of lengths 500 and 10 (one scalar
per output unit of each layer), for every hidden feature size. -/
theorem maskGen_mask_shapes (hidden : Nat) :
    maskGenMaskShapes
      [("mat_0", [784, 500]), ("bias_0", [500]), ("mat_1", [500, 10]), ("bias_1", [10])]
      hidden
      = some [("layer_0", 500), ("layer_1", 10)] := by
  simp [maskGenMaskShapes, catDim0Shapes, groupByLayer, groupInsert, List.mapM.loop,
    pysplit_mat0, pysplit_bias0, pysplit_mat1, pysplit_bias1]

/-! ## Claim C5: build_block_diag places blocks on the diagonal -/

theorem length_zerosMat (r c : Nat) : (zerosMat r c).length = r := by
  simp [zerosMat]

theorem catCols2_left_zeros (off : Nat) (t : Mat) :
    catCols2 (zerosMat t.length off) t
      = some (t.map (fun row => List.replicate off (0 : ℚ) ++ row)) := by
  unfold catCols2
  rw [if_pos (length_zerosMat _ _)]
  show some (List.zipWith _ (List.replicate t.length (List.replicate off (0 : ℚ))) t) = _
  rw [zipWith_replicate_left_len (fun r1 r2 => r1 ++ r2) (List.replicate off (0 : ℚ)) t]

theorem catCols2_right_zeros (w : Nat) (m : Mat) :
    catCols2 m (zerosMat m.length w)
      = some (m.map (fun row => row ++ List.replicate w (0 : ℚ))) := by
  unfold catCols2
  rw [if_pos (length_zerosMat _ _).symm]
  show some (List.zipWith _ m (List.replicate m.length (List.replicate w (0 : ℚ)))) = _
  rw [zipWith_replicate_right_len (fun r1 r2 => r1 ++ r2) (List.replicate w (0 : ℚ)) m]

theorem assembleBlock_middle (off w : Nat) (t : Mat) :
    assembleBlock (some (zerosMat t.length off), some (zerosMat t.length w)) t
      = some (t.map (fun row =>
          List.replicate off (0 : ℚ) ++ row ++ List.replicate w (0 : ℚ))) := by
  show catColsList [zerosMat t.length off, t, zerosMat t.length w] = _
  show (catCols2 (zerosMat t.length off) t).bind
      (fun a => (catCols2 a (zerosMat t.length w)).bind
        (fun b => List.foldlM catCols2 b [])) = _
  rw [catCols2_left_zeros]
  simp only [Option.some_bind]
  have hlen : (t.map (fun row => List.replicate off (0 : ℚ) ++ row)).length = t.length :=
    List.length_map _ _
  rw [← hlen, catCols2_right_zeros]
  simp [List.map_map, Function.comp_def, List.append_assoc]

theorem assembleBlock_first (w : Nat) (t : Mat) :
    assembleBlock (none, some (zerosMat t.length w)) t
      = some (t.map (fun row => row ++ List.replicate w (0 : ℚ))) := by
  show catColsList [t, zerosMat t.length w] = _
  show (catCols2 t (zerosMat t.length w)).bind (fun b => List.foldlM catCols2 b []) = _
  rw [catCols2_right_zeros]
  rfl

theorem assembleBlock_last (off : Nat) (t : Mat) :
    assembleBlock (some (zerosMat t.length off), none) t
      = some (t.map (fun row => List.replicate off (0 : ℚ) ++ row)) := by
  show catColsList [zerosMat t.length off, t] = _
  show (catCols2 (zerosMat t.length off) t).bind (fun b => List.foldlM catCols2 b []) = _
  rw [catCols2_left_zeros]
  rfl

theorem assembleBlock_single (t : Mat) :
    assembleBlock (none, none) t = some t := rfl

theorem assembleAll_fresh :
    ∀ (ts : List Mat) (total offset : Nat) (first : Bool),
      (∀ t ∈ ts, SquareMat t) →
      offset + (sizesOf ts).sum = total →
      (first = true → offset = 0) →
      assembleAll (mkZerosSig total offset first (sizesOf ts)) ts
        = some (blockDiagSpecBlocks total offset ts)
  | [], total, offset, first => by intros; rfl
  | t :: rest, total, offset, first => by
    intro hsq hsum hfirst
    have ih := assembleAll_fresh rest total (offset + t.length) false
      (fun x hx => hsq x (List.mem_cons_of_mem t hx))
      (by simp [sizesOf] at hsum ⊢; omega)
      (by intro h; cases h)
    cases first with
    | true =>
        have hoff : offset = 0 := hfirst rfl
        subst hoff
        cases rest with
        | nil =>
            have htot : total - (0 + t.length) = 0 := by
              simp [sizesOf] at hsum; omega
            show (assembleBlock (none, none) t).bind
                (fun b => (assembleAll [] []).bind (fun bs => some (b :: bs))) = _
            rw [assembleBlock_single]
            show some [t] = some (blockDiagSpecBlocks total 0 [t])
            show some [t] = some
              [t.map (fun row => List.replicate 0 (0 : ℚ) ++ row ++
                List.replicate (total - (0 + t.length)) (0 : ℚ))]
            rw [htot]
            simp
        | cons r rs =>
            show (assembleBlock (none,
                some (zerosMat t.length (total - (0 + t.length)))) t).bind
                (fun b => (assembleAll
                  (mkZerosSig total (0 + t.length) false (sizesOf (r :: rs)))
                  (r :: rs)).bind (fun bs => some (b :: bs))) = _
            rw [assembleBlock_first, ih]
            show some (_ :: blockDiagSpecBlocks total (0 + t.length) (r :: rs))
                = some (blockDiagSpecBlocks total 0 (r :: rs |> List.cons t))
            show some (_ :: blockDiagSpecBlocks total (0 + t.length) (r :: rs))
                = some
                  (t.map (fun row => List.replicate 0 (0 : ℚ) ++ row ++
                    List.replicate (total - (0 + t.length)) (0 : ℚ)) ::
                    blockDiagSpecBlocks total (0 + t.length) (r :: rs))
            simp
    | false =>
        cases rest with
        | nil =>
            have htot : total - (offset + t.length) = 0 := by
              simp [sizesOf] at hsum; omega
            show (assembleBlock (some (zerosMat t.length offset), none) t).bind
                (fun b => (assembleAll [] []).bind (fun bs => some (b :: bs))) = _
            rw [assembleBlock_last]
            show some [t.map (fun row => List.replicate offset (0 : ℚ) ++ row)]
                = some
                  [t.map (fun row => List.replicate offset (0 : ℚ) ++ row ++
                    List.replicate (total - (offset + t.length)) (0 : ℚ))]
            rw [htot]
            simp
        | cons r rs =>
            show (assembleBlock (some (zerosMat t.length offset),
                some (zerosMat t.length (total - (offset + t.length)))) t).bind
                (fun b => (assembleAll
                  (mkZerosSig total (offset + t.length) false (sizesOf (r :: rs)))
                  (r :: rs)).bind (fun bs => some (b :: bs))) = _
            rw [assembleBlock_middle, ih]
            rfl

theorem blockDiagSpecBlocks_rows :
    ∀ (ts : List Mat) (total offset : Nat),
      (∀ t ∈ ts, SquareMat t) →
      offset + (sizesOf ts).sum = total →
      ∀ b ∈ blockDiagSpecBlocks total offset ts,
        b ≠ [] ∧ ∀ row ∈ b, row.length = total
  | [], _, _ => by intro _ _ b hb; cases hb
  | t :: rest, total, offset => by
    intro hsq hsum b hb
    cases hb with
    | head =>
        obtain ⟨hpos, hrows⟩ := hsq t (List.mem_cons_self t rest)
        constructor
        · intro habs
          rw [List.map_eq_nil_iff] at habs
          rw [habs] at hpos
          exact Nat.lt_irrefl 0 hpos
        · intro row hrow
          obtain ⟨r0, hr0, rfl⟩ := List.mem_map.1 hrow
          have hle : offset + t.length ≤ total := by
            simp [sizesOf] at hsum; omega
          simp [hrows r0 hr0]
          omega
    | tail _ hb2 =>
        exact blockDiagSpecBlocks_rows rest total (offset + t.length)
          (fun x hx => hsq x (List.mem_cons_of_mem t hx))
          (by simp [sizesOf] at hsum ⊢; omega) b hb2

theorem catRows_of_uniform (ms : List Mat) (total : Nat) (hne : ms ≠ [])
    (h : ∀ b ∈ ms, b ≠ [] ∧ ∀ row ∈ b, row.length = total) :
    catRowsList ms = some ms.flatten := by
  cases ms with
  | nil => exact absurd rfl hne
  | cons m rest =>
      have hcols : ∀ b ∈ m :: rest, colsOf b = total := by
        intro b hb
        obtain ⟨hbne, hbrows⟩ := h b hb
        cases b with
        | nil => exact absurd rfl hbne
        | cons r rs => exact hbrows r (List.mem_cons_self r rs)
      have hall : (rest.all fun x => decide (colsOf x = colsOf m)) = true := by
        rw [List.all_eq_true]
        intro x hx
        rw [decide_eq_true_eq,
          hcols x (List.mem_cons_of_mem m hx), hcols m (List.mem_cons_self m rest)]
      show (if (rest.all fun x => decide (colsOf x = colsOf m)) = true
          then some ((m :: rest).flatten) else none) = some ((m :: rest).flatten)
      rw [hall]
      simp

/-- C5: on a fresh cache (`self.zeros is None`, as after `__init__`), given a
nonempty list of square blocks, `build_block_diag` returns exactly the matrix
that places block `i` on the diagonal at offset `Σ_(j<i) n_j` and fills every
off-block entry with zero (the matrix `blockDiagSpec`, built directly from the
specification's words; its width is the sum of the block sizes). -/
theorem buildBlockDiag_fresh_correct (tensors : List Mat)
    (hsq : ∀ t ∈ tensors, SquareMat t) (hne : tensors ≠ []) :
    (buildBlockDiag none tensors).2 = some (blockDiagSpec tensors) := by
  show buildBlockDiagWith (mkZeros tensors) tensors = _
  unfold buildBlockDiagWith mkZeros
  rw [assembleAll_fresh tensors (sizesOf tensors).sum 0 true hsq (by simp) (fun _ => rfl)]
  simp only [Option.bind_eq_bind, Option.some_bind]
  rw [catRows_of_uniform _ (sizesOf tensors).sum]
  · rfl
  · cases tensors with
    | nil => exact absurd rfl hne
    | cons t rest => exact List.cons_ne_nil _ _
  · exact blockDiagSpecBlocks_rows tensors (sizesOf tensors).sum 0 hsq (by simp)

/-- Witness for C5 at square blocks of sizes `[2, 3, 1]`: the hypotheses hold
and the resulting 6×6 matrix has the three blocks at offsets 0, 2 and 5 with
every off-block entry zero. -/
theorem buildBlockDiag_fresh_correct_witness :
    (buildBlockDiag none
        [[[1, 1], [1, 1]], [[2, 2, 2], [2, 2, 2], [2, 2, 2]], [[3]]]).2
      = some (blockDiagSpec
        [[[1, 1], [1, 1]], [[2, 2, 2], [2, 2, 2], [2, 2, 2]], [[3]]])
  ∧ blockDiagSpec [[[1, 1], [1, 1]], [[2, 2, 2], [2, 2, 2], [2, 2, 2]], [[3]]]
      = [[1, 1, 0, 0, 0, 0],
         [1, 1, 0, 0, 0, 0],
         [0, 0, 2, 2, 2, 0],
         [0, 0, 2, 2, 2, 0],
         [0, 0, 2, 2, 2, 0],
         [0, 0, 0, 0, 0, 3]] :=
  ⟨buildBlockDiag_fresh_correct
      [[[1, 1], [1, 1]], [[2, 2, 2], [2, 2, 2], [2, 2, 2]], [[3]]]
      (by decide) (by decide),
   by decide⟩

/-! ## Claim C6: cache behaviour of the block matrices (corrected) -/

theorem bbdRun_cached (sig : List Nat) :
    ∀ (calls : List (List Mat)),
      (∀ c ∈ calls, sizesOf c = sig) →
      bbdRun (some (mkZerosSig sig.sum 0 true sig)) calls = bbdRunRebuild calls
  | [] => fun _ => rfl
  | c :: cs => by
    intro h
    have hc : sizesOf c = sig := h c (List.mem_cons_self c cs)
    have hmk : mkZeros c = mkZerosSig sig.sum 0 true sig := by
      rw [mkZeros, hc]
    have hhead : buildBlockDiagWith (mkZerosSig sig.sum 0 true sig) c
        = (buildBlockDiag none c).2 := by
      rw [← hmk]; rfl
    show buildBlockDiagWith (mkZerosSig sig.sum 0 true sig) c ::
        bbdRun (some (mkZerosSig sig.sum 0 true sig)) cs
        = (buildBlockDiag none c).2 :: bbdRunRebuild cs
    rw [hhead, bbdRun_cached sig cs (fun x hx => h x (List.mem_cons_of_mem c hx))]

/-- Counterexample to C6 as stated: a first `build_block_diag` call with two
1×1 blocks followed by one with two 2×2 blocks.  The memoized version reuses
the stale 1-row zero paddings, so the second call fails (`torch.cat` row
mismatch, modelled as `none`), while the always-rebuild version returns the
correct 4×4 block diagonal — the caching is observable. -/
theorem maskGen_cache_counterexample :
    bbdRun none [[[[1]], [[1]]], [[[1, 0], [0, 1]], [[2, 0], [0, 2]]]]
      ≠ bbdRunRebuild [[[[1]], [[1]]], [[[1, 0], [0, 1]], [[2, 0], [0, 2]]]]
  ∧ (bbdRun none [[[[1]], [[1]]], [[[1, 0], [0, 1]], [[2, 0], [0, 2]]]])[1]?
      = some none
  ∧ (bbdRunRebuild [[[[1]], [[1]]], [[[1, 0], [0, 1]], [[2, 0], [0, 2]]]])[1]?
      = some (some [[1, 0, 0, 0], [0, 1, 0, 0], [0, 0, 2, 0], [0, 0, 0, 2]]) := by
  refine ⟨?_, rfl, rfl⟩
  intro h
  have h2 := congrArg (fun l => l[1]?) h
  simp only at h2
  cases h2

/-- C6 (amended): the zero-padding cache is built on the first
`build_block_diag` call and never invalidated, so the memoized and
always-rebuild versions agree exactly on call sequences whose block row-count
signature never changes (they differ otherwise, see the counterexample); and
the identity/ones cache of `forward` is rebuilt on every call with a nonzero
unit count — its test compares the cached size against twice the current
count — not only when the count changes. -/
theorem maskGen_cache_amended :
    (∀ (calls : List (List Mat)) (sig : List Nat),
        (∀ c ∈ calls, sizesOf c = sig) →
        bbdRun none calls = bbdRunRebuild calls)
  ∧ ∀ n : Nat, eyesRebuildCond (some (eyeMat (n + 1))) (n + 1) = true := by
  constructor
  · intro calls sig h
    cases calls with
    | nil => rfl
    | cons c cs =>
        have hc : sizesOf c = sig := h c (List.mem_cons_self c cs)
        have hmk : mkZeros c = mkZerosSig sig.sum 0 true sig := by
          rw [mkZeros, hc]
        show buildBlockDiagWith (mkZeros c) c :: bbdRun (some (mkZeros c)) cs
            = (buildBlockDiag none c).2 :: bbdRunRebuild cs
        rw [hmk]
        rw [bbdRun_cached sig cs (fun x hx => h x (List.mem_cons_of_mem c hx))]
        rw [← hmk]
        rfl
  · intro n
    show (!((eyeMat (n + 1)).length == (n + 1) * 2)) = true
    have hlen : (eyeMat (n + 1)).length = n + 1 := by simp [eyeMat]
    rw [hlen]
    simp only [Bool.not_eq_true', beq_eq_false_iff_ne, ne_eq]
    omega

/-- Witness for C6 (amended) on a two-call sequence with the same block
signature `[1]`. -/
theorem maskGen_cache_amended_witness :
    bbdRun none [[[[1]]], [[[2]]]] = bbdRunRebuild [[[[1]]], [[[2]]]] :=
  maskGen_cache_amended.1 [[[[1]]], [[[2]]]] [1] (by decide)

/-! ## Claim C1: the accumulate/truncate/detach block (corrected) -/

/-- Counterexample to C1 as stated: in train mode at iteration 2 with unroll
length 2 and `total_test = 5`, the block backpropagates only the previously
accumulated loss 3 and resets the accumulator — this iteration's
`test_loss + kl` is added neither to the backpropagated loss nor to the new
accumulator, so not every train iteration accumulates; the boundary then
raises `AttributeError` at `self.step_gen.log_lr` (line 157) before the
parameter tensor can be detached; and with unroll length 1 the iteration-1
boundary meets the int-`0` accumulator, so `unroll_losses.backward()` itself
raises `AttributeError` (line 150) and the promised clip/step never happen. -/
theorem truncBlock_counterexample :
    (truncBlock RunMode.train 2 2 5 (Accum.tensor 3)).1.1 = Accum.intZero
  ∧ (truncBlock RunMode.train 2 2 5 (Accum.tensor 3)).1.2.backproped = some 3
  ∧ (truncBlock RunMode.train 2 2 5 (Accum.tensor 3)).1.2.backproped ≠ some (3 + 5)
  ∧ (truncBlock RunMode.train 2 2 5 (Accum.tensor 3)).2
      = some (PyError.attributeError "log_lr")
  ∧ (truncBlock RunMode.train 2 2 5 (Accum.tensor 3)).1.2.detachedParams = false
  ∧ (truncBlock RunMode.train 1 1 5 Accum.intZero).2
      = some (PyError.attributeError "backward")
  ∧ (truncBlock RunMode.train 1 1 5 Accum.intZero).1.2.steppedMeta = false
  ∧ (truncBlock RunMode.train 1 1 5 Accum.intZero).1.2.gradClip = none := by
  refine ⟨rfl, rfl, fun h => ?_, rfl, rfl, rfl, rfl, rfl⟩
  have h2 : (3 : ℚ) = 3 + 5 := Option.some.inj h
  norm_num at h2

/-- C1 (amended): in train mode, an iteration whose index is not a multiple
of the unroll length only adds `total_test` to the accumulator (turning the
int `0` into a tensor) and raises nothing; an iteration at a multiple of the
unroll length whose accumulator is a tensor (always the case when
`unroll ≥ 2`, since the preceding iterations of the window accumulated)
zeroes the meta-optimizer gradients, backpropagates the accumulator as it
stood before this iteration (without the current `total_test`), clips
gradients to 0.01, steps the meta-optimizer, resets the accumulator to the
int `0`, and then raises `AttributeError` reading the never-assigned
`self.step_gen.log_lr` before the parameter tensor is detached; a boundary
iteration whose accumulator is still the int `0` (as at every iteration when
`unroll = 1`) zeroes the gradients and then raises `AttributeError` at
`unroll_losses.backward()`, with no clip, meta-step or reset and without
reaching the `log_lr` read; outside train mode nothing is accumulated and
the `log_lr` `AttributeError` is raised at every iteration. -/
theorem truncBlock_amended (mode : RunMode) (it unroll : Nat) (total : ℚ)
    (acc : Accum) (_hu : 0 < unroll) :
    ((mode = RunMode.train ∧ it % unroll ≠ 0) →
        truncBlock mode it unroll total acc
          = ((acc.add total, ⟨false, none, none, false, false⟩), none))
  ∧ ((mode = RunMode.train ∧ it % unroll = 0) →
        ∀ v : ℚ, acc = Accum.tensor v →
          truncBlock mode it unroll total acc
            = ((Accum.intZero, ⟨true, some v, some (1 / 100), true, false⟩),
               some (PyError.attributeError "log_lr")))
  ∧ ((mode = RunMode.train ∧ it % unroll = 0 ∧ acc = Accum.intZero) →
        truncBlock mode it unroll total acc
          = ((Accum.intZero, ⟨true, none, none, false, false⟩),
             some (PyError.attributeError "backward")))
  ∧ (mode ≠ RunMode.train →
        truncBlock mode it unroll total acc
          = ((acc, ⟨false, none, none, false, false⟩),
             some (PyError.attributeError "log_lr"))) := by
  refine ⟨?_, ?_, ?_, ?_⟩
  · rintro ⟨rfl, hne⟩
    simp [truncBlock, hne]
  · rintro ⟨rfl, heq⟩ v rfl
    simp [truncBlock, heq]
  · rintro ⟨rfl, heq, rfl⟩
    simp [truncBlock, heq]
  · intro hm
    cases mode with
    | train => exact absurd rfl hm
    | valid => simp [truncBlock]
    | test => simp [truncBlock]

/-- Witness for C1 (amended): unroll length 2 at iterations 1 and 2 in train
mode with a tensor accumulator, unroll length 3 at its first boundary with
the int-`0` accumulator, and iteration 7 in test mode. -/
theorem truncBlock_amended_witness :
    truncBlock RunMode.train 1 2 5 (Accum.tensor 3)
      = ((Accum.tensor (3 + 5), ⟨false, none, none, false, false⟩), none)
  ∧ truncBlock RunMode.train 2 2 5 (Accum.tensor 3)
      = ((Accum.intZero, ⟨true, some 3, some (1 / 100), true, false⟩),
         some (PyError.attributeError "log_lr"))
  ∧ truncBlock RunMode.train 3 3 5 Accum.intZero
      = ((Accum.intZero, ⟨true, none, none, false, false⟩),
         some (PyError.attributeError "backward"))
  ∧ truncBlock RunMode.test 7 2 5 (Accum.tensor 3)
      = ((Accum.tensor 3, ⟨false, none, none, false, false⟩),
         some (PyError.attributeError "log_lr")) :=
  ⟨(truncBlock_amended RunMode.train 1 2 5 (Accum.tensor 3) (by decide)).1
      ⟨rfl, by decide⟩,
   (truncBlock_amended RunMode.train 2 2 5 (Accum.tensor 3) (by decide)).2.1
      ⟨rfl, by decide⟩ 3 rfl,
   (truncBlock_amended RunMode.train 3 3 5 Accum.intZero (by decide)).2.2.1
      ⟨rfl, by decide, rfl⟩,
   (truncBlock_amended RunMode.test 7 2 5 (Accum.tensor 3) (by decide)).2.2.2
      (by decide)⟩

/-! ## Claim C8: meta_optimize crashes before any result record -/

/-- C8: for every iteration budget, the call skeleton of
`Optimizer.meta_optimize` raises before producing any result record:
`self.step_gen.new()` fails because neither `StepGenerator`'s class body nor
the `nn.Module` surface defines `new` (while `FeatureGenerator` does define
it), and even the loop body's first call `self.feature_gen(g)` would raise a
`TypeError`, since `FeatureGenerator.forward` requires two positional
arguments. -/
theorem metaOptimize_always_raises :
    (∀ n : Nat, metaOptimizeCalls n = Except.error (PyError.attributeError "new"))
  ∧ innerLoopBodyCalls = Except.error (PyError.typeError "FeatureGenerator.forward")
  ∧ "new" ∉ stepGeneratorMethods ∧ "new" ∉ nnModuleAttrs
  ∧ "new" ∈ featureGeneratorMethods := by
  refine ⟨fun n => rfl, rfl, by decide, by decide, by decide⟩

/-! ## Claim C10: detach_lambdas_ on a fresh MaskGenerator -/

/-- C10: on a freshly constructed `MaskGenerator`, `detach_lambdas_` raises
`AttributeError` at `self.lamb` (which `__init__` never assigns, unlike
`gamm_g` and `gamm_l` which are assigned `None` and skipped); after a
`forward` call has assigned all three slots, it succeeds and leaves every
numeric value unchanged. -/
theorem detachLambdas_fresh_raises :
    detachLambdas mgFreshState = Except.error (PyError.attributeError "lamb")
  ∧ ∀ (out : List (ℚ × ℚ × ℚ)) (setSizes : List Nat) (s : MGLambdaState),
      ∃ s2 : MGLambdaState,
        detachLambdas (forwardLambdaEffect out setSizes s) = Except.ok s2
        ∧ s2.lamb.map (Option.map TensorG.data)
            = (forwardLambdaEffect out setSizes s).lamb.map (Option.map TensorG.data)
        ∧ s2.gamm_g.map TensorG.data
            = (forwardLambdaEffect out setSizes s).gamm_g.map TensorG.data
        ∧ s2.gamm_l.map (List.map TensorG.data)
            = (forwardLambdaEffect out setSizes s).gamm_l.map (List.map TensorG.data) := by
  refine ⟨rfl, fun out setSizes s => ?_⟩
  refine ⟨_, rfl, rfl, rfl, ?_⟩
  simp [detachLambdas, forwardLambdaEffect, TensorG.detach, List.map_map, Function.comp_def]

end LearnedOpt
